import Mathlib

/-!
# GPIO LoanIO (hps/loan_gpio.c, hps/loan_gpio.h)

A shallow embedding of the LoanIO helper: the three file-scope variables
`mem_fd`, `iomgr_map`, `generalio_reg`, the two internal routines
`init_iomgr_mapping` / `cleanup_iomgr_mapping` and the three public
operations `loan_gpio_to_fpga`, `restore_gpio_to_hps`, `print_iomgr_status`.

The operating system and the hardware are made explicit:

* the result of `open` and of `mmap` is supplied by a `Backend` value (one per
  public call, since a call performs at most one `open` and one `mmap`);
* the hardware register is one 32-bit cell `hw_reg`, reachable through a
  pointer `p + 0x784` for every live mapping `p` of the IOMGR page;
* every system call and every register access is appended to `trace`, every
  `printf` to `stdout`;
* a load or store through a pointer that is not backed by a live mapping is a
  fault: the operation yields `none`.
-/

namespace LoanGpio

/-! ## Constants -/

/-- The macro `IOMGR_BASE` of loan_gpio.h. -/
def IOMGR_BASE : Nat := 0xFFD05000

/-- The macro `GPIO_LOAN_MASK` of loan_gpio.h: bits 16-21 (GPIO 48-53). -/
def GPIO_LOAN_MASK : Nat := 0x3F0000

/-- The null pointer. -/
def NULL : Nat := 0

/-- The value `MAP_FAILED` of <sys/mman.h>, that is `(void *) -1`, on the 32-bit
ARM host processor of the Cyclone V. -/
def MAP_FAILED : Nat := 0xFFFFFFFF

/-- Byte offset of the register inside the mapped page (line 39). -/
def GENERALIO_OFFSET : Nat := 0x784

/-- The C operator `~` applied to an `int` constant and converted to `uint32_t`. -/
def bnot32 (x : Nat) : Nat := (2 ^ 32 - 1 - x % 2 ^ 32) % 2 ^ 32

/-! ## Environment and program state -/

/-- Observable actions of the process on the operating system and the hardware. -/
inductive Event where
  | sys_open (ret : Int)
  | sys_mmap (fd : Int) (offset : Nat) (ret : Nat)
  | sys_munmap (addr : Nat) (len : Nat)
  | sys_close (fd : Int)
  | load (addr : Nat)
  | store (addr : Nat) (val : Nat)
  deriving DecidableEq, Repr

/-- What the operating system answers to the `open` and `mmap` of one call. -/
structure Backend where
  open_ret : Int
  mmap_ret : Nat
  deriving DecidableEq, Repr

/-- The three static variables of loan_gpio.c together with the environment. -/
structure World where
  mem_fd : Int
  iomgr_map : Nat
  generalio_reg : Nat
  hw_reg : Nat
  live : List Nat
  stdout : List String
  trace : List Event
  deriving DecidableEq, Repr

/-- Process start: the static initialisers of lines 13-15, register value `v`. -/
def World.start (v : Nat) : World :=
  { mem_fd := -1, iomgr_map := NULL, generalio_reg := NULL,
    hw_reg := v, live := [], stdout := [], trace := [] }

/-- The call `printf(s)` with all conversions already substituted. -/
def printf (s : String) (w : World) : World :=
  { w with stdout := w.stdout ++ [s] }

/-- A pointer is backed by the hardware register when it is `p + 0x784` for a live
mapping `p`. -/
def backed (live : List Nat) (a : Nat) : Bool :=
  live.any (fun p => a == p + GENERALIO_OFFSET)

/-- The volatile read `*a` of a `uint32_t`. -/
def load32 (w : World) (a : Nat) : Option (Nat × World) :=
  if backed w.live a then
    some (w.hw_reg % 2 ^ 32, { w with trace := w.trace ++ [Event.load a] })
  else none

/-- The volatile write `*a = v` of a `uint32_t`. -/
def store32 (w : World) (a : Nat) (v : Nat) : Option World :=
  if backed w.live a then
    some { w with hw_reg := v % 2 ^ 32, trace := w.trace ++ [Event.store a (v % 2 ^ 32)] }
  else none

/-! ## Text formatting -/

/-- One upper-case hexadecimal digit. -/
def hexDigit (d : Nat) : Char :=
  if d < 10 then Char.ofNat (48 + d) else Char.ofNat (55 + d)

/-- The conversion `%08X` of a `uint32_t`. -/
def hex8 (n : Nat) : String :=
  String.mk ((List.range 8).reverse.map (fun k => hexDigit (n / 16 ^ k % 16)))

/-- The line printed by `printf("  GPIO %d: %s\n", i, loaned ? ... : ...)`. -/
def pinLine (i : Nat) (loaned : Nat) : String :=
  "  GPIO " ++ toString i ++ ": " ++
    (if loaned ≠ 0 then "LOANED to FPGA" else "HPS control") ++ "\n"

/-! ## The routines of loan_gpio.c -/

/-- Lines 18-42. Returns the C return value and the new state. -/
def init_iomgr_mapping (b : Backend) (w : World) : Int × World :=
  if 0 ≤ w.mem_fd then (0, w)
  else
    let w1 := { w with mem_fd := b.open_ret,
                       trace := w.trace ++ [Event.sys_open b.open_ret] }
    if w1.mem_fd < 0 then
      (-1, printf "Error: Cannot open /dev/mem (need root privileges)\n" w1)
    else
      let w2 := { w1 with
        iomgr_map := b.mmap_ret,
        live := if b.mmap_ret = MAP_FAILED then w1.live else b.mmap_ret :: w1.live,
        trace := w1.trace ++ [Event.sys_mmap w1.mem_fd IOMGR_BASE b.mmap_ret] }
      if w2.iomgr_map = MAP_FAILED then
        let w3 := printf "Error: Cannot map IOMGR registers\n" w2
        let w4 := { w3 with trace := w3.trace ++ [Event.sys_close w3.mem_fd] }
        (-1, { w4 with mem_fd := -1 })
      else
        (0, { w2 with generalio_reg := w2.iomgr_map + GENERALIO_OFFSET })

/-- Lines 45-55. -/
def cleanup_iomgr_mapping (w : World) : World :=
  let w1 :=
    if w.iomgr_map ≠ NULL then
      { w with live := w.live.erase w.iomgr_map,
               trace := w.trace ++ [Event.sys_munmap w.iomgr_map 0x1000],
               iomgr_map := NULL,
               generalio_reg := NULL }
    else w
  if 0 ≤ w1.mem_fd then
    { w1 with trace := w1.trace ++ [Event.sys_close w1.mem_fd], mem_fd := -1 }
  else w1

/-- Lines 58-69. -/
def loan_gpio_to_fpga (b : Backend) (w : World) : Option World :=
  let r := init_iomgr_mapping b w
  if r.1 < 0 then some r.2
  else
    match load32 r.2 r.2.generalio_reg with
    | none => none
    | some (current, w1) =>
      let new_value := (current ||| GPIO_LOAN_MASK) % 2 ^ 32
      match store32 w1 w1.generalio_reg new_value with
      | none => none
      | some w2 =>
        some (printf "Loaned pins can now be controlled by FPGA logic\n"
          (printf ("GENERALIO register: 0x" ++ hex8 current ++ " -> 0x" ++ hex8 new_value ++ "\n")
            (printf "LoanIO: Loaned GPIO pins 48-53 to FPGA\n" w2)))

/-- Lines 72-82. -/
def restore_gpio_to_hps (b : Backend) (w : World) : Option World :=
  let r := init_iomgr_mapping b w
  if r.1 < 0 then some r.2
  else
    match load32 r.2 r.2.generalio_reg with
    | none => none
    | some (current, w1) =>
      let new_value := (current &&& bnot32 GPIO_LOAN_MASK) % 2 ^ 32
      match store32 w1 w1.generalio_reg new_value with
      | none => none
      | some w2 =>
        some (printf ("GENERALIO register: 0x" ++ hex8 current ++ " -> 0x" ++ hex8 new_value ++ "\n")
          (printf "LoanIO: Restored GPIO pins 48-53 to HPS control\n" w2))

/-- The loop of lines 92-96, entered with loop variable `i`. -/
def statusLoop (current : Nat) (i : Nat) (w : World) : World :=
  if i ≤ 53 then
    let bit := i - 32
    let loaned := (current >>> bit) &&& 1
    statusLoop current (i + 1) (printf (pinLine i loaned) w)
  else w
termination_by 54 - i

/-- Lines 85-99. -/
def print_iomgr_status (b : Backend) (w : World) : Option World :=
  let r := init_iomgr_mapping b w
  if r.1 < 0 then some r.2
  else
    match load32 r.2 r.2.generalio_reg with
    | none => none
    | some (current, w1) =>
      let w2 := printf ("IOMGR GENERALIO Status: 0x" ++ hex8 current ++ "\n") w1
      let w3 := printf "GPIO Loan Status:\n" w2
      some (cleanup_iomgr_mapping (statusLoop current 48 w3))

/-! ## Vocabulary of the properties -/

/-- The operating system grants both the `open` and the `mmap`. -/
def Backend.works (b : Backend) : Prop :=
  0 ≤ b.open_ret ∧ b.mmap_ret ≠ MAP_FAILED

instance (b : Backend) : Decidable b.works := by
  unfold Backend.works; infer_instance

/-- The operating system refuses the `open`, or grants it and refuses the `mmap`. -/
def Backend.fails (b : Backend) : Prop :=
  b.open_ret < 0 ∨ b.mmap_ret = MAP_FAILED

instance (b : Backend) : Decidable b.fails := by
  unfold Backend.fails; infer_instance

/-- The state "Unmapped" of the specification. -/
def Unmapped (w : World) : Prop :=
  w.mem_fd = -1 ∧ w.iomgr_map = NULL ∧ w.generalio_reg = NULL

instance (w : World) : Decidable (Unmapped w) := by
  unfold Unmapped; infer_instance

/-- The state "Mapped": a handle is held and `generalio_reg` points at the register
of a live mapping of the page. -/
def Mapped (w : World) : Prop :=
  0 ≤ w.mem_fd ∧ w.generalio_reg = w.iomgr_map + GENERALIO_OFFSET ∧ w.iomgr_map ∈ w.live

instance (w : World) : Decidable (Mapped w) := by
  unfold Mapped; infer_instance

/-- The static variables agree with the environment: either no handle is held, or
the state is "Mapped". Holds at process start and after every routine. -/
def Consistent (w : World) : Prop :=
  w.mem_fd < 0 ∨ Mapped w

instance (w : World) : Decidable (Consistent w) := by
  unfold Consistent; infer_instance

/-- The state in which `init_iomgr_mapping` leaves a working backend. -/
def ensured (b : Backend) (w : World) : World :=
  if 0 ≤ w.mem_fd then w
  else
    { w with mem_fd := b.open_ret,
             iomgr_map := b.mmap_ret,
             generalio_reg := b.mmap_ret + GENERALIO_OFFSET,
             live := b.mmap_ret :: w.live,
             trace := w.trace ++ [Event.sys_open b.open_ret,
                                  Event.sys_mmap b.open_ret IOMGR_BASE b.mmap_ret] }

/-- A public call that ends in a register write. -/
inductive Call where
  | loan
  | restore
  deriving DecidableEq, Repr

/-- One call of `loan_gpio_to_fpga` or `restore_gpio_to_hps`. -/
def Call.exec (c : Call) (b : Backend) (w : World) : Option World :=
  match c with
  | Call.loan => loan_gpio_to_fpga b w
  | Call.restore => restore_gpio_to_hps b w

/-- A sequence of loan/restore calls, each with the backend answers it would get. -/
def runCalls : List (Call × Backend) → World → Option World
  | [], w => some w
  | (c, b) :: rest, w =>
    match c.exec b w with
    | none => none
    | some w1 => runCalls rest w1

/-- A register access through the pointer `a`. -/
def Event.isAccessAt (a : Nat) : Event → Bool
  | Event.load x => x == a
  | Event.store x _ => x == a
  | _ => false

/-- The six lines of the status table for the register value `c`. -/
def pinTable (c : Nat) : List String :=
  (List.range' 48 6).map (fun i => pinLine i ((c >>> (i - 32)) &&& 1))

/-! ## Bit-level facts about the mask -/

theorem mask_testBit (i : Nat) :
    GPIO_LOAN_MASK.testBit i = decide (16 ≤ i ∧ i ≤ 21) := by
  have h : GPIO_LOAN_MASK = (2 ^ 6 - 1) <<< 16 := by decide
  rw [h, Nat.testBit_shiftLeft, Nat.testBit_two_pow_sub_one]
  by_cases h1 : 16 ≤ i <;> by_cases h2 : i ≤ 21 <;> simp [h1, h2] <;> omega

theorem bnot32_mask : bnot32 GPIO_LOAN_MASK = (2 ^ 32 - 1) ^^^ GPIO_LOAN_MASK := by decide

theorem bnot32_mask_testBit (i : Nat) :
    (bnot32 GPIO_LOAN_MASK).testBit i = (decide (i < 32) && !decide (16 ≤ i ∧ i ≤ 21)) := by
  rw [bnot32_mask, Nat.testBit_xor, Nat.testBit_two_pow_sub_one, mask_testBit]
  by_cases h0 : i < 32 <;> by_cases h1 : 16 ≤ i <;> by_cases h2 : i ≤ 21 <;>
    simp [h0, h1, h2]
  all_goals omega

theorem or_mask_lt (v : Nat) (hv : v < 2 ^ 32) : v ||| GPIO_LOAN_MASK < 2 ^ 32 :=
  Nat.or_lt_two_pow hv (by decide)

theorem and_not_mask_lt (v : Nat) (hv : v < 2 ^ 32) : v &&& bnot32 GPIO_LOAN_MASK < 2 ^ 32 :=
  lt_of_le_of_lt Nat.and_le_left hv

theorem testBit_high (v i : Nat) (hv : v < 2 ^ 32) (hi : 32 ≤ i) : v.testBit i = false :=
  Nat.testBit_lt_two_pow (lt_of_lt_of_le hv (Nat.pow_le_pow_right (by decide) hi))

theorem shift_and_one (x i : Nat) : ((x >>> i) &&& 1 ≠ 0) ↔ x.testBit i = true := by
  unfold Nat.testBit
  rw [Nat.land_comm]
  simp

/-! ## What each routine computes -/

theorem init_of_works (b : Backend) (w : World) (hb : b.works) :
    init_iomgr_mapping b w = (0, ensured b w) := by
  obtain ⟨ho, hm⟩ := hb
  unfold init_iomgr_mapping ensured
  by_cases h : 0 ≤ w.mem_fd
  · simp [h]
  · simp [h, hm, not_lt.mpr ho]

theorem backed_ensured (b : Backend) (w : World) (hw : Consistent w) :
    backed (ensured b w).live (ensured b w).generalio_reg = true := by
  unfold ensured backed
  by_cases h : 0 ≤ w.mem_fd
  · rcases hw with hlt | ⟨_, hreg, hlive⟩
    · omega
    · simp only [h, if_true, List.any_eq_true, beq_iff_eq]
      exact ⟨w.iomgr_map, hlive, hreg⟩
  · simp [h]

theorem mapped_ensured (b : Backend) (w : World) (hb : b.works) (hw : Consistent w) :
    Mapped (ensured b w) := by
  unfold ensured Mapped
  by_cases h : 0 ≤ w.mem_fd
  · rcases hw with hlt | hm
    · omega
    · simpa [h, Mapped] using hm
  · simp [h, hb.1]

theorem loan_eq (b : Backend) (w : World) (hb : b.works) (hw : Consistent w) :
    loan_gpio_to_fpga b w = some
      { ensured b w with
        hw_reg := (w.hw_reg % 2 ^ 32 ||| GPIO_LOAN_MASK) % 2 ^ 32
        trace := (ensured b w).trace ++
          [Event.load (ensured b w).generalio_reg,
           Event.store (ensured b w).generalio_reg
             ((w.hw_reg % 2 ^ 32 ||| GPIO_LOAN_MASK) % 2 ^ 32)]
        stdout := w.stdout ++
          ["LoanIO: Loaned GPIO pins 48-53 to FPGA\n",
           "GENERALIO register: 0x" ++ hex8 (w.hw_reg % 2 ^ 32) ++ " -> 0x" ++
             hex8 ((w.hw_reg % 2 ^ 32 ||| GPIO_LOAN_MASK) % 2 ^ 32) ++ "\n",
           "Loaned pins can now be controlled by FPGA logic\n"] } := by
  have hbk := backed_ensured b w hw
  have hreg : (ensured b w).hw_reg = w.hw_reg := by unfold ensured; split <;> rfl
  have hout : (ensured b w).stdout = w.stdout := by unfold ensured; split <;> rfl
  simp [loan_gpio_to_fpga, init_of_works b w hb, load32, store32, hbk, printf, hreg, hout]

theorem restore_eq (b : Backend) (w : World) (hb : b.works) (hw : Consistent w) :
    restore_gpio_to_hps b w = some
      { ensured b w with
        hw_reg := (w.hw_reg % 2 ^ 32 &&& bnot32 GPIO_LOAN_MASK) % 2 ^ 32
        trace := (ensured b w).trace ++
          [Event.load (ensured b w).generalio_reg,
           Event.store (ensured b w).generalio_reg
             ((w.hw_reg % 2 ^ 32 &&& bnot32 GPIO_LOAN_MASK) % 2 ^ 32)]
        stdout := w.stdout ++
          ["LoanIO: Restored GPIO pins 48-53 to HPS control\n",
           "GENERALIO register: 0x" ++ hex8 (w.hw_reg % 2 ^ 32) ++ " -> 0x" ++
             hex8 ((w.hw_reg % 2 ^ 32 &&& bnot32 GPIO_LOAN_MASK) % 2 ^ 32) ++ "\n"] } := by
  have hbk := backed_ensured b w hw
  have hreg : (ensured b w).hw_reg = w.hw_reg := by unfold ensured; split <;> rfl
  have hout : (ensured b w).stdout = w.stdout := by unfold ensured; split <;> rfl
  simp [restore_gpio_to_hps, init_of_works b w hb, load32, store32, hbk, printf, hreg, hout]

theorem statusLoop_step (c i : Nat) (w : World) (h : i ≤ 53) :
    statusLoop c i w = statusLoop c (i + 1) (printf (pinLine i ((c >>> (i - 32)) &&& 1)) w) := by
  rw [statusLoop]
  simp [h]

theorem statusLoop_done (c i : Nat) (w : World) (h : 53 < i) : statusLoop c i w = w := by
  rw [statusLoop]
  simp [not_le.mpr h]

theorem statusLoop_eq (c : Nat) (w : World) :
    statusLoop c 48 w = { w with stdout := w.stdout ++ pinTable c } := by
  have h : List.range' 48 6 = [48, 49, 50, 51, 52, 53] := by decide
  rw [statusLoop_step c 48 w (by decide), statusLoop_step c 49 _ (by decide),
    statusLoop_step c 50 _ (by decide), statusLoop_step c 51 _ (by decide),
    statusLoop_step c 52 _ (by decide), statusLoop_step c 53 _ (by decide),
    statusLoop_done c 54 _ (by decide)]
  simp [printf, pinTable, h]

theorem cleanup_stdout (w : World) : (cleanup_iomgr_mapping w).stdout = w.stdout := by
  unfold cleanup_iomgr_mapping
  by_cases h1 : w.iomgr_map ≠ NULL <;> by_cases h2 : 0 ≤ w.mem_fd <;> simp [h1, h2]

theorem cleanup_hw_reg (w : World) : (cleanup_iomgr_mapping w).hw_reg = w.hw_reg := by
  unfold cleanup_iomgr_mapping
  by_cases h1 : w.iomgr_map ≠ NULL <;> by_cases h2 : 0 ≤ w.mem_fd <;> simp [h1, h2]

theorem status_eq (b : Backend) (w : World) (hb : b.works) (hw : Consistent w) :
    print_iomgr_status b w = some (cleanup_iomgr_mapping
      { ensured b w with
        trace := (ensured b w).trace ++ [Event.load (ensured b w).generalio_reg]
        stdout := w.stdout ++
          ["IOMGR GENERALIO Status: 0x" ++ hex8 (w.hw_reg % 2 ^ 32) ++ "\n",
           "GPIO Loan Status:\n"] ++ pinTable (w.hw_reg % 2 ^ 32) }) := by
  have hbk := backed_ensured b w hw
  have hreg : (ensured b w).hw_reg = w.hw_reg := by unfold ensured; split <;> rfl
  have hout : (ensured b w).stdout = w.stdout := by unfold ensured; split <;> rfl
  simp [print_iomgr_status, init_of_works b w hb, load32, hbk, printf, hreg, hout,
    statusLoop_eq]

theorem pinLine_testBit (c i : Nat) :
    pinLine i ((c >>> (i - 32)) &&& 1) =
      "  GPIO " ++ toString i ++ ": " ++
        (if c.testBit (i - 32) = true then "LOANED to FPGA" else "HPS control") ++ "\n" := by
  unfold pinLine
  by_cases h : c.testBit (i - 32) = true
  · rw [if_pos ((shift_and_one c (i - 32)).mpr h), if_pos h]
  · rw [if_neg (fun h2 => h ((shift_and_one c (i - 32)).mp h2)), if_neg h]

theorem ensured_hw_reg (b : Backend) (w : World) : (ensured b w).hw_reg = w.hw_reg := by
  unfold ensured; split <;> rfl

/-! ## Register contents after loan and restore -/

/-- C1 (mask invariance). With a working backend, `loan_gpio_to_fpga` returns and leaves
the register equal to `v ||| 0x003F0000`, where `v` is the 32-bit value it held before:
bits 16..21 are all 1 and every other bit is the corresponding bit of `v`. -/
theorem loan_mask_invariance (v : Nat) (b : Backend) (w : World)
    (hv : v < 2 ^ 32) (hreg : w.hw_reg = v) (hb : b.works) (hw : Consistent w) :
    ∃ w1, loan_gpio_to_fpga b w = some w1 ∧
      w1.hw_reg = v ||| 0x003F0000 ∧
      (∀ i, 16 ≤ i → i ≤ 21 → w1.hw_reg.testBit i = true) ∧
      (∀ i, ¬ (16 ≤ i ∧ i ≤ 21) → w1.hw_reg.testBit i = v.testBit i) := by
  subst hreg
  refine ⟨_, loan_eq b w hb hw, ?_, ?_, ?_⟩
  · show (w.hw_reg % 2 ^ 32 ||| GPIO_LOAN_MASK) % 2 ^ 32 = _
    rw [Nat.mod_eq_of_lt hv, Nat.mod_eq_of_lt (or_mask_lt _ hv)]
    rfl
  · intro i h1 h2
    show ((w.hw_reg % 2 ^ 32 ||| GPIO_LOAN_MASK) % 2 ^ 32).testBit i = true
    rw [Nat.mod_eq_of_lt hv, Nat.mod_eq_of_lt (or_mask_lt _ hv), Nat.testBit_or, mask_testBit]
    simp [h1, h2]
  · intro i h
    show ((w.hw_reg % 2 ^ 32 ||| GPIO_LOAN_MASK) % 2 ^ 32).testBit i = _
    rw [Nat.mod_eq_of_lt hv, Nat.mod_eq_of_lt (or_mask_lt _ hv), Nat.testBit_or, mask_testBit]
    simp [h]

theorem loan_mask_invariance_witness :
    ∃ w1, loan_gpio_to_fpga ⟨3, 0x76F00000⟩ (World.start 0x80001234) = some w1 ∧
      w1.hw_reg = 0x80001234 ||| 0x003F0000 ∧
      (∀ i, 16 ≤ i → i ≤ 21 → w1.hw_reg.testBit i = true) ∧
      (∀ i, ¬ (16 ≤ i ∧ i ≤ 21) → w1.hw_reg.testBit i = (0x80001234 : Nat).testBit i) :=
  loan_mask_invariance 0x80001234 ⟨3, 0x76F00000⟩ (World.start 0x80001234)
    (by decide) rfl (by decide) (by decide)

/-- C2 (restore invariance). With a working backend, `restore_gpio_to_hps` returns and
leaves the register equal to `v &&& ~0x003F0000` computed in 32 bits, that is
`v &&& 0xFFC0FFFF`: bits 16..21 are all 0 and every other bit is the corresponding bit
of `v`. -/
theorem restore_mask_invariance (v : Nat) (b : Backend) (w : World)
    (hv : v < 2 ^ 32) (hreg : w.hw_reg = v) (hb : b.works) (hw : Consistent w) :
    ∃ w1, restore_gpio_to_hps b w = some w1 ∧
      w1.hw_reg = v &&& 0xFFC0FFFF ∧
      bnot32 0x003F0000 = 0xFFC0FFFF ∧
      (∀ i, 16 ≤ i → i ≤ 21 → w1.hw_reg.testBit i = false) ∧
      (∀ i, ¬ (16 ≤ i ∧ i ≤ 21) → w1.hw_reg.testBit i = v.testBit i) := by
  subst hreg
  refine ⟨_, restore_eq b w hb hw, ?_, by decide, ?_, ?_⟩
  · show (w.hw_reg % 2 ^ 32 &&& bnot32 GPIO_LOAN_MASK) % 2 ^ 32 = _
    rw [Nat.mod_eq_of_lt hv, Nat.mod_eq_of_lt (and_not_mask_lt _ hv)]
    rfl
  · intro i h1 h2
    show ((w.hw_reg % 2 ^ 32 &&& bnot32 GPIO_LOAN_MASK) % 2 ^ 32).testBit i = false
    rw [Nat.mod_eq_of_lt hv, Nat.mod_eq_of_lt (and_not_mask_lt _ hv), Nat.testBit_and,
      bnot32_mask_testBit]
    simp [h1, h2]
  · intro i h
    show ((w.hw_reg % 2 ^ 32 &&& bnot32 GPIO_LOAN_MASK) % 2 ^ 32).testBit i = _
    rw [Nat.mod_eq_of_lt hv, Nat.mod_eq_of_lt (and_not_mask_lt _ hv), Nat.testBit_and,
      bnot32_mask_testBit]
    by_cases h32 : i < 32
    · simp [h, h32]
    · rw [testBit_high _ i hv (not_lt.mp h32)]
      simp

theorem restore_mask_invariance_witness :
    ∃ w1, restore_gpio_to_hps ⟨3, 0x76F00000⟩ (World.start 0x803F1234) = some w1 ∧
      w1.hw_reg = 0x803F1234 &&& 0xFFC0FFFF ∧
      bnot32 0x003F0000 = 0xFFC0FFFF ∧
      (∀ i, 16 ≤ i → i ≤ 21 → w1.hw_reg.testBit i = false) ∧
      (∀ i, ¬ (16 ≤ i ∧ i ≤ 21) → w1.hw_reg.testBit i = (0x803F1234 : Nat).testBit i) :=
  restore_mask_invariance 0x803F1234 ⟨3, 0x76F00000⟩ (World.start 0x803F1234)
    (by decide) rfl (by decide) (by decide)

/-! ## Calls made while the mapping is open -/

theorem init_of_mapped (b : Backend) (w : World) (h : 0 ≤ w.mem_fd) :
    init_iomgr_mapping b w = (0, w) := by
  unfold init_iomgr_mapping
  simp [h]

theorem ensured_of_mapped (b : Backend) (w : World) (h : 0 ≤ w.mem_fd) : ensured b w = w := by
  unfold ensured
  simp [h]

theorem loan_of_mapped (b : Backend) (w : World) (hm : Mapped w) :
    loan_gpio_to_fpga b w = some
      { w with
        hw_reg := (w.hw_reg % 2 ^ 32 ||| GPIO_LOAN_MASK) % 2 ^ 32
        trace := w.trace ++
          [Event.load w.generalio_reg,
           Event.store w.generalio_reg ((w.hw_reg % 2 ^ 32 ||| GPIO_LOAN_MASK) % 2 ^ 32)]
        stdout := w.stdout ++
          ["LoanIO: Loaned GPIO pins 48-53 to FPGA\n",
           "GENERALIO register: 0x" ++ hex8 (w.hw_reg % 2 ^ 32) ++ " -> 0x" ++
             hex8 ((w.hw_reg % 2 ^ 32 ||| GPIO_LOAN_MASK) % 2 ^ 32) ++ "\n",
           "Loaned pins can now be controlled by FPGA logic\n"] } := by
  have h1 : loan_gpio_to_fpga b w = loan_gpio_to_fpga ⟨0, 0⟩ w := by
    unfold loan_gpio_to_fpga
    rw [init_of_mapped b w hm.1, init_of_mapped ⟨0, 0⟩ w hm.1]
  rw [h1, loan_eq ⟨0, 0⟩ w (by decide) (Or.inr hm), ensured_of_mapped _ w hm.1]

theorem restore_of_mapped (b : Backend) (w : World) (hm : Mapped w) :
    restore_gpio_to_hps b w = some
      { w with
        hw_reg := (w.hw_reg % 2 ^ 32 &&& bnot32 GPIO_LOAN_MASK) % 2 ^ 32
        trace := w.trace ++
          [Event.load w.generalio_reg,
           Event.store w.generalio_reg ((w.hw_reg % 2 ^ 32 &&& bnot32 GPIO_LOAN_MASK) % 2 ^ 32)]
        stdout := w.stdout ++
          ["LoanIO: Restored GPIO pins 48-53 to HPS control\n",
           "GENERALIO register: 0x" ++ hex8 (w.hw_reg % 2 ^ 32) ++ " -> 0x" ++
             hex8 ((w.hw_reg % 2 ^ 32 &&& bnot32 GPIO_LOAN_MASK) % 2 ^ 32) ++ "\n"] } := by
  have h1 : restore_gpio_to_hps b w = restore_gpio_to_hps ⟨0, 0⟩ w := by
    unfold restore_gpio_to_hps
    rw [init_of_mapped b w hm.1, init_of_mapped ⟨0, 0⟩ w hm.1]
  rw [h1, restore_eq ⟨0, 0⟩ w (by decide) (Or.inr hm), ensured_of_mapped _ w hm.1]

theorem status_of_mapped (b : Backend) (w : World) (hm : Mapped w) :
    print_iomgr_status b w = some (cleanup_iomgr_mapping
      { w with
        trace := w.trace ++ [Event.load w.generalio_reg]
        stdout := w.stdout ++
          ["IOMGR GENERALIO Status: 0x" ++ hex8 (w.hw_reg % 2 ^ 32) ++ "\n",
           "GPIO Loan Status:\n"] ++ pinTable (w.hw_reg % 2 ^ 32) }) := by
  have h1 : print_iomgr_status b w = print_iomgr_status ⟨0, 0⟩ w := by
    unfold print_iomgr_status
    rw [init_of_mapped b w hm.1, init_of_mapped ⟨0, 0⟩ w hm.1]
  rw [h1, status_eq ⟨0, 0⟩ w (by decide) (Or.inr hm), ensured_of_mapped _ w hm.1]

theorem and_not_mask_eq_self_iff (v : Nat) (hv : v < 2 ^ 32) :
    v &&& bnot32 GPIO_LOAN_MASK = v ↔ v &&& GPIO_LOAN_MASK = 0 := by
  constructor
  · intro h
    apply Nat.eq_of_testBit_eq
    intro i
    have hi := congrArg (fun x => Nat.testBit x i) h
    simp only [Nat.testBit_and, bnot32_mask_testBit] at hi
    rw [Nat.testBit_and, mask_testBit, Nat.zero_testBit]
    by_cases hm : 16 ≤ i ∧ i ≤ 21
    · simp [hm] at hi
      simp [hi]
    · simp [hm]
  · intro h
    apply Nat.eq_of_testBit_eq
    intro i
    have hi := congrArg (fun x => Nat.testBit x i) h
    simp only [Nat.testBit_and, mask_testBit, Nat.zero_testBit] at hi
    rw [Nat.testBit_and, bnot32_mask_testBit]
    by_cases h32 : i < 32
    · by_cases hm : 16 ≤ i ∧ i ≤ 21
      · simp [hm] at hi
        simp [hi]
      · simp [hm, h32]
    · rw [testBit_high v i hv (not_lt.mp h32)]
      simp

/-! ## `Consistent` is an invariant and excludes faults -/

theorem consistent_start (v : Nat) : Consistent (World.start v) :=
  Or.inl (show (-1 : Int) < 0 by decide)

theorem init_of_not_works (b : Backend) (w : World) (hfd : w.mem_fd < 0) (hb : ¬ b.works) :
    (init_iomgr_mapping b w).1 < 0 ∧ (init_iomgr_mapping b w).2.mem_fd < 0 := by
  have hnot : ¬ 0 ≤ w.mem_fd := not_le.mpr hfd
  unfold init_iomgr_mapping
  by_cases ho : b.open_ret < 0
  · simp [hnot, ho, printf]
  · have hm : b.mmap_ret = MAP_FAILED := by
      by_contra h
      exact hb ⟨not_lt.mp ho, h⟩
    simp [hnot, ho, hm]

theorem cleanup_mem_fd (w : World) : (cleanup_iomgr_mapping w).mem_fd < 0 := by
  unfold cleanup_iomgr_mapping
  by_cases h1 : w.iomgr_map ≠ NULL <;> by_cases h2 : 0 ≤ w.mem_fd <;> simp [h1, h2]
  all_goals omega

theorem loan_consistent (b : Backend) (w : World) (hw : Consistent w) :
    ∃ w1, loan_gpio_to_fpga b w = some w1 ∧ Consistent w1 := by
  by_cases hfd : w.mem_fd < 0
  · by_cases hb : b.works
    · exact ⟨_, loan_eq b w hb hw, Or.inr (mapped_ensured b w hb hw)⟩
    · obtain ⟨h1, h2⟩ := init_of_not_works b w hfd hb
      refine ⟨(init_iomgr_mapping b w).2, ?_, Or.inl h2⟩
      unfold loan_gpio_to_fpga
      simp [h1]
  · rcases hw with h | hm
    · exact absurd h hfd
    · exact ⟨_, loan_of_mapped b w hm, Or.inr hm⟩

theorem restore_consistent (b : Backend) (w : World) (hw : Consistent w) :
    ∃ w1, restore_gpio_to_hps b w = some w1 ∧ Consistent w1 := by
  by_cases hfd : w.mem_fd < 0
  · by_cases hb : b.works
    · exact ⟨_, restore_eq b w hb hw, Or.inr (mapped_ensured b w hb hw)⟩
    · obtain ⟨h1, h2⟩ := init_of_not_works b w hfd hb
      refine ⟨(init_iomgr_mapping b w).2, ?_, Or.inl h2⟩
      unfold restore_gpio_to_hps
      simp [h1]
  · rcases hw with h | hm
    · exact absurd h hfd
    · exact ⟨_, restore_of_mapped b w hm, Or.inr hm⟩

theorem status_consistent (b : Backend) (w : World) (hw : Consistent w) :
    ∃ w1, print_iomgr_status b w = some w1 ∧ Consistent w1 := by
  by_cases hfd : w.mem_fd < 0
  · by_cases hb : b.works
    · exact ⟨_, status_eq b w hb hw, Or.inl (cleanup_mem_fd _)⟩
    · obtain ⟨h1, h2⟩ := init_of_not_works b w hfd hb
      refine ⟨(init_iomgr_mapping b w).2, ?_, Or.inl h2⟩
      unfold print_iomgr_status
      simp [h1]
  · rcases hw with h | hm
    · exact absurd h hfd
    · exact ⟨_, status_of_mapped b w hm, Or.inl (cleanup_mem_fd _)⟩

theorem loan_result_mapped (b : Backend) (w : World) (hb : b.works) (hw : Consistent w) :
    ∃ w1, loan_gpio_to_fpga b w = some w1 ∧ Mapped w1 ∧
      w1.hw_reg = (w.hw_reg % 2 ^ 32 ||| GPIO_LOAN_MASK) % 2 ^ 32 ∧
      w1.mem_fd = (ensured b w).mem_fd ∧ w1.iomgr_map = (ensured b w).iomgr_map ∧
      w1.generalio_reg = (ensured b w).generalio_reg :=
  ⟨_, loan_eq b w hb hw, mapped_ensured b w hb hw, rfl, rfl, rfl, rfl⟩

theorem restore_result_mapped (b : Backend) (w : World) (hb : b.works) (hw : Consistent w) :
    ∃ w1, restore_gpio_to_hps b w = some w1 ∧ Mapped w1 ∧
      w1.hw_reg = (w.hw_reg % 2 ^ 32 &&& bnot32 GPIO_LOAN_MASK) % 2 ^ 32 :=
  ⟨_, restore_eq b w hb hw, mapped_ensured b w hb hw, rfl⟩

/-! ## Round trip and idempotence -/

/-- C3, as stated, fails: starting from the register value 0x003F0000 (all six pins
already loaned), `loan_gpio_to_fpga` followed by `restore_gpio_to_hps` ends with the
register at 0, so bit 16 is not returned to the state it had and the final value
differs from the initial one. -/
theorem roundtrip_loses_mask_bits :
    Option.map World.hw_reg
        ((loan_gpio_to_fpga ⟨3, 0x76F00000⟩ (World.start 0x003F0000)).bind
          (restore_gpio_to_hps ⟨3, 0x76F00000⟩)) = some 0 ∧
      (0x003F0000 : Nat).testBit 16 = true ∧ (0 : Nat).testBit 16 = false ∧
      (0 : Nat) ≠ 0x003F0000 := by
  decide

/-- C3, amended. With a working backend, `loan_gpio_to_fpga` followed by
`restore_gpio_to_hps` both return; the register holds `v ||| 0x003F0000` in between and
`v &&& 0xFFC0FFFF` at the end: bits 16..21 end at 0 whatever they were in `v`, every
other bit equals the bit of `v` after each of the two calls, and the final value is
`v` exactly when `v` had none of the bits 16..21 set. Starting from 0 the value is
0x003F0000 after the loan and 0 after the restore. -/
theorem loan_then_restore (v : Nat) (b1 b2 : Backend) (w : World)
    (hv : v < 2 ^ 32) (hreg : w.hw_reg = v) (hb : b1.works) (hw : Consistent w) :
    ∃ w1 w2, loan_gpio_to_fpga b1 w = some w1 ∧ restore_gpio_to_hps b2 w1 = some w2 ∧
      w1.hw_reg = v ||| 0x003F0000 ∧
      w2.hw_reg = v &&& 0xFFC0FFFF ∧
      (∀ i, 16 ≤ i → i ≤ 21 → w2.hw_reg.testBit i = false) ∧
      (∀ i, ¬ (16 ≤ i ∧ i ≤ 21) →
        w1.hw_reg.testBit i = v.testBit i ∧ w2.hw_reg.testBit i = v.testBit i) ∧
      (w2.hw_reg = v ↔ v &&& 0x003F0000 = 0) ∧
      (v = 0 → w1.hw_reg = 0x003F0000 ∧ w2.hw_reg = 0) := by
  obtain ⟨w1, h1, hm1, hr1, -⟩ := loan_result_mapped b1 w hb hw
  have hmid : w1.hw_reg = v ||| GPIO_LOAN_MASK := by
    rw [hr1, hreg, Nat.mod_eq_of_lt hv, Nat.mod_eq_of_lt (or_mask_lt _ hv)]
  have hmid_lt : w1.hw_reg < 2 ^ 32 := hmid ▸ or_mask_lt _ hv
  have hfin : (w1.hw_reg % 2 ^ 32 &&& bnot32 GPIO_LOAN_MASK) % 2 ^ 32 =
      v &&& bnot32 GPIO_LOAN_MASK := by
    rw [Nat.mod_eq_of_lt hmid_lt, Nat.mod_eq_of_lt (and_not_mask_lt _ hmid_lt), hmid]
    apply Nat.eq_of_testBit_eq
    intro i
    simp only [Nat.testBit_and, Nat.testBit_or, bnot32_mask_testBit, mask_testBit]
    by_cases hm : 16 ≤ i ∧ i ≤ 21 <;> simp [hm]
  have hbit : ∀ i, (v &&& bnot32 GPIO_LOAN_MASK).testBit i =
      (v.testBit i && !decide (16 ≤ i ∧ i ≤ 21)) := by
    intro i
    rw [Nat.testBit_and, bnot32_mask_testBit]
    by_cases h32 : i < 32
    · simp [h32]
    · rw [testBit_high v i hv (not_lt.mp h32)]
      simp
  refine ⟨w1, _, h1, restore_of_mapped b2 w1 hm1, hmid, ?_, ?_, ?_, ?_, ?_⟩
  · show (w1.hw_reg % 2 ^ 32 &&& bnot32 GPIO_LOAN_MASK) % 2 ^ 32 = _
    rw [hfin]
    rfl
  · intro i h16 h21
    show ((w1.hw_reg % 2 ^ 32 &&& bnot32 GPIO_LOAN_MASK) % 2 ^ 32).testBit i = false
    rw [hfin, hbit]
    simp [h16, h21]
  · intro i hi
    constructor
    · rw [hmid, Nat.testBit_or, mask_testBit]
      simp [hi]
    · show ((w1.hw_reg % 2 ^ 32 &&& bnot32 GPIO_LOAN_MASK) % 2 ^ 32).testBit i = _
      rw [hfin, hbit]
      simp [hi]
  · show (w1.hw_reg % 2 ^ 32 &&& bnot32 GPIO_LOAN_MASK) % 2 ^ 32 = v ↔ _
    rw [hfin]
    exact and_not_mask_eq_self_iff v hv
  · intro h0
    subst h0
    constructor
    · rw [hmid]
      decide
    · show (w1.hw_reg % 2 ^ 32 &&& bnot32 GPIO_LOAN_MASK) % 2 ^ 32 = 0
      rw [hfin]
      decide

theorem loan_then_restore_witness :
    ∃ w1 w2, loan_gpio_to_fpga ⟨3, 0x76F00000⟩ (World.start 0) = some w1 ∧
      restore_gpio_to_hps ⟨-1, 0⟩ w1 = some w2 ∧
      w1.hw_reg = 0 ||| 0x003F0000 ∧
      w2.hw_reg = 0 &&& 0xFFC0FFFF ∧
      (∀ i, 16 ≤ i → i ≤ 21 → w2.hw_reg.testBit i = false) ∧
      (∀ i, ¬ (16 ≤ i ∧ i ≤ 21) →
        w1.hw_reg.testBit i = (0 : Nat).testBit i ∧
          w2.hw_reg.testBit i = (0 : Nat).testBit i) ∧
      (w2.hw_reg = 0 ↔ 0 &&& 0x003F0000 = 0) ∧
      ((0 : Nat) = 0 → w1.hw_reg = 0x003F0000 ∧ w2.hw_reg = 0) :=
  loan_then_restore 0 ⟨3, 0x76F00000⟩ ⟨-1, 0⟩ (World.start 0)
    (by decide) rfl (by decide) (by decide)

/-- C4 (idempotence). With a working backend for the first call, two successive calls
of `loan_gpio_to_fpga` both return and leave the register at `v ||| 0x003F0000`, the
value it has after the first call alone. The second call performs no system call: it
keeps the handle, the mapping and the register pointer of the first, reads the register
through that pointer and writes the value it read. -/
theorem loan_twice (v : Nat) (b1 b2 : Backend) (w : World)
    (hv : v < 2 ^ 32) (hreg : w.hw_reg = v) (hb : b1.works) (hw : Consistent w) :
    ∃ w1 w2, loan_gpio_to_fpga b1 w = some w1 ∧ loan_gpio_to_fpga b2 w1 = some w2 ∧
      w1.hw_reg = v ||| 0x3F0000 ∧
      w2.hw_reg = w1.hw_reg ∧
      w2.mem_fd = w1.mem_fd ∧ w2.iomgr_map = w1.iomgr_map ∧
      w2.generalio_reg = w1.generalio_reg ∧ w2.live = w1.live ∧
      w2.trace = w1.trace ++
        [Event.load w1.generalio_reg, Event.store w1.generalio_reg w1.hw_reg] := by
  obtain ⟨w1, h1, hm1, hr1, -⟩ := loan_result_mapped b1 w hb hw
  have hmid : w1.hw_reg = v ||| GPIO_LOAN_MASK := by
    rw [hr1, hreg, Nat.mod_eq_of_lt hv, Nat.mod_eq_of_lt (or_mask_lt _ hv)]
  have hmid_lt : w1.hw_reg < 2 ^ 32 := hmid ▸ or_mask_lt _ hv
  have hsame : (w1.hw_reg % 2 ^ 32 ||| GPIO_LOAN_MASK) % 2 ^ 32 = w1.hw_reg := by
    rw [Nat.mod_eq_of_lt hmid_lt, Nat.mod_eq_of_lt (or_mask_lt _ hmid_lt), hmid,
      Nat.or_assoc, Nat.or_self]
  refine ⟨w1, _, h1, loan_of_mapped b2 w1 hm1, hmid, hsame, rfl, rfl, rfl, rfl, ?_⟩
  show w1.trace ++ [Event.load w1.generalio_reg, Event.store w1.generalio_reg
    ((w1.hw_reg % 2 ^ 32 ||| GPIO_LOAN_MASK) % 2 ^ 32)] = _
  rw [hsame]

theorem loan_twice_witness :
    ∃ w1 w2, loan_gpio_to_fpga ⟨3, 0x76F00000⟩ (World.start 0x00051234) = some w1 ∧
      loan_gpio_to_fpga ⟨-1, 0⟩ w1 = some w2 ∧
      w1.hw_reg = 0x00051234 ||| 0x3F0000 ∧
      w2.hw_reg = w1.hw_reg ∧
      w2.mem_fd = w1.mem_fd ∧ w2.iomgr_map = w1.iomgr_map ∧
      w2.generalio_reg = w1.generalio_reg ∧ w2.live = w1.live ∧
      w2.trace = w1.trace ++
        [Event.load w1.generalio_reg, Event.store w1.generalio_reg w1.hw_reg] :=
  loan_twice 0x00051234 ⟨3, 0x76F00000⟩ ⟨-1, 0⟩ (World.start 0x00051234)
    (by decide) rfl (by decide) (by decide)

/-! ## The status report -/

theorem pinTable_testBit (c : Nat) :
    pinTable c = [48, 49, 50, 51, 52, 53].map (fun p =>
      "  GPIO " ++ toString p ++ ": " ++
        (if c.testBit (p - 32) = true then "LOANED to FPGA" else "HPS control") ++ "\n") := by
  have h : List.range' 48 6 = [48, 49, 50, 51, 52, 53] := by decide
  unfold pinTable
  rw [h]
  apply List.map_congr_left
  intro p _
  exact pinLine_testBit c p

/-- C5 (status accuracy). With a working backend, `print_iomgr_status` returns and,
after its two header lines, prints exactly six lines, one for each pin 48, 49, ..., 53
in this order; the line of pin `p` says "LOANED to FPGA" if bit `p - 32` of the
register value `v` is 1 and "HPS control" otherwise. The register is left at `v`. -/
theorem status_accuracy (v : Nat) (b : Backend) (w : World)
    (hv : v < 2 ^ 32) (hreg : w.hw_reg = v) (hb : b.works) (hw : Consistent w) :
    ∃ w1, print_iomgr_status b w = some w1 ∧
      w1.stdout = w.stdout ++
        ["IOMGR GENERALIO Status: 0x" ++ hex8 v ++ "\n", "GPIO Loan Status:\n"] ++
        [48, 49, 50, 51, 52, 53].map (fun p =>
          "  GPIO " ++ toString p ++ ": " ++
            (if v.testBit (p - 32) = true then "LOANED to FPGA" else "HPS control") ++ "\n") ∧
      w1.hw_reg = v := by
  subst hreg
  refine ⟨_, status_eq b w hb hw, ?_, ?_⟩
  · rw [cleanup_stdout, Nat.mod_eq_of_lt hv, pinTable_testBit]
  · rw [cleanup_hw_reg]
    exact ensured_hw_reg b w

theorem status_accuracy_witness :
    ∃ w1, print_iomgr_status ⟨3, 0x76F00000⟩ (World.start 0x00150000) = some w1 ∧
      w1.stdout = (World.start 0x00150000).stdout ++
        ["IOMGR GENERALIO Status: 0x" ++ hex8 0x00150000 ++ "\n", "GPIO Loan Status:\n"] ++
        [48, 49, 50, 51, 52, 53].map (fun p =>
          "  GPIO " ++ toString p ++ ": " ++
            (if (0x00150000 : Nat).testBit (p - 32) = true then "LOANED to FPGA"
              else "HPS control") ++ "\n") ∧
      w1.hw_reg = 0x00150000 :=
  status_accuracy 0x00150000 ⟨3, 0x76F00000⟩ (World.start 0x00150000)
    (by decide) rfl (by decide) (by decide)

/-! ## Failure of `open` or `mmap` -/

/-- C6 (failure path). When no handle is held, so that the call does open /dev/mem, and
the `open` fails or the `mmap` fails, each of the three public operations returns
normally in the same state: the register still holds `v`, no load or store was
performed (the only actions are the `open`, and after a granted `open` the `mmap` and
the `close`), and exactly one error message was printed. -/
theorem failure_leaves_register (v : Nat) (b : Backend) (w : World)
    (hreg : w.hw_reg = v) (hfd : w.mem_fd < 0) (hb : b.fails) :
    ∃ w1, loan_gpio_to_fpga b w = some w1 ∧ restore_gpio_to_hps b w = some w1 ∧
      print_iomgr_status b w = some w1 ∧
      w1.hw_reg = v ∧
      (b.open_ret < 0 →
        w1.stdout = w.stdout ++ ["Error: Cannot open /dev/mem (need root privileges)\n"] ∧
        w1.trace = w.trace ++ [Event.sys_open b.open_ret]) ∧
      (0 ≤ b.open_ret →
        w1.stdout = w.stdout ++ ["Error: Cannot map IOMGR registers\n"] ∧
        w1.trace = w.trace ++ [Event.sys_open b.open_ret,
          Event.sys_mmap b.open_ret IOMGR_BASE MAP_FAILED, Event.sys_close b.open_ret]) := by
  subst hreg
  have hnot : ¬ 0 ≤ w.mem_fd := not_le.mpr hfd
  by_cases ho : b.open_ret < 0
  · have hinit : init_iomgr_mapping b w =
        (-1, printf "Error: Cannot open /dev/mem (need root privileges)\n"
          { w with mem_fd := b.open_ret, trace := w.trace ++ [Event.sys_open b.open_ret] }) := by
      unfold init_iomgr_mapping
      simp [hnot, ho]
    refine ⟨(init_iomgr_mapping b w).2, ?_, ?_, ?_, ?_, ?_, fun h => absurd h (not_le.mpr ho)⟩
    · unfold loan_gpio_to_fpga
      simp [hinit]
    · unfold restore_gpio_to_hps
      simp [hinit]
    · unfold print_iomgr_status
      simp [hinit]
    · rw [hinit]
      rfl
    · intro _
      rw [hinit]
      exact ⟨rfl, rfl⟩
  · have hm : b.mmap_ret = MAP_FAILED := by
      rcases hb with h | h
      · exact absurd h ho
      · exact h
    have hinit : init_iomgr_mapping b w =
        (-1, { w with
          mem_fd := -1
          iomgr_map := MAP_FAILED
          stdout := w.stdout ++ ["Error: Cannot map IOMGR registers\n"]
          trace := w.trace ++ [Event.sys_open b.open_ret,
            Event.sys_mmap b.open_ret IOMGR_BASE MAP_FAILED, Event.sys_close b.open_ret] }) := by
      unfold init_iomgr_mapping
      simp [hnot, ho, hm, printf]
    refine ⟨(init_iomgr_mapping b w).2, ?_, ?_, ?_, ?_, fun h => absurd h ho, ?_⟩
    · unfold loan_gpio_to_fpga
      simp [hinit]
    · unfold restore_gpio_to_hps
      simp [hinit]
    · unfold print_iomgr_status
      simp [hinit]
    · rw [hinit]
    · intro _
      rw [hinit]
      exact ⟨rfl, rfl⟩

theorem failure_leaves_register_witness :
    ∃ w1, loan_gpio_to_fpga ⟨3, MAP_FAILED⟩ (World.start 0x1234) = some w1 ∧
      restore_gpio_to_hps ⟨3, MAP_FAILED⟩ (World.start 0x1234) = some w1 ∧
      print_iomgr_status ⟨3, MAP_FAILED⟩ (World.start 0x1234) = some w1 ∧
      w1.hw_reg = 0x1234 ∧
      ((3 : Int) < 0 →
        w1.stdout = (World.start 0x1234).stdout ++
          ["Error: Cannot open /dev/mem (need root privileges)\n"] ∧
        w1.trace = (World.start 0x1234).trace ++ [Event.sys_open 3]) ∧
      ((0 : Int) ≤ 3 →
        w1.stdout = (World.start 0x1234).stdout ++ ["Error: Cannot map IOMGR registers\n"] ∧
        w1.trace = (World.start 0x1234).trace ++ [Event.sys_open 3,
          Event.sys_mmap 3 IOMGR_BASE MAP_FAILED, Event.sys_close 3]) :=
  failure_leaves_register 0x1234 ⟨3, MAP_FAILED⟩ (World.start 0x1234)
    rfl (by decide) (by decide)

/-- C7, evaluated from process start with `open` returning handle 3 and `mmap`
returning `MAP_FAILED`. `init_iomgr_mapping` reports the error, closes handle 3, sets
`mem_fd` to -1 and returns -1, but `iomgr_map` keeps the value `MAP_FAILED`, which is
not `NULL`: the state is not "Unmapped", and a later `cleanup_iomgr_mapping` passes
`MAP_FAILED` to `munmap`. -/
theorem init_mmap_failure_keeps_map_failed :
    init_iomgr_mapping ⟨3, MAP_FAILED⟩ (World.start 0) =
      (-1, { mem_fd := -1, iomgr_map := MAP_FAILED, generalio_reg := NULL, hw_reg := 0,
             live := [], stdout := ["Error: Cannot map IOMGR registers\n"],
             trace := [Event.sys_open 3, Event.sys_mmap 3 IOMGR_BASE MAP_FAILED,
                       Event.sys_close 3] }) ∧
      MAP_FAILED ≠ NULL ∧
      ¬ Unmapped (init_iomgr_mapping ⟨3, MAP_FAILED⟩ (World.start 0)).2 ∧
      (cleanup_iomgr_mapping (init_iomgr_mapping ⟨3, MAP_FAILED⟩ (World.start 0)).2).trace =
        [Event.sys_open 3, Event.sys_mmap 3 IOMGR_BASE MAP_FAILED, Event.sys_close 3,
         Event.sys_munmap MAP_FAILED 0x1000] := by
  decide

/-- C8, evaluated from process start with `open` returning handle 3 and `mmap`
returning `MAP_FAILED`. `print_iomgr_status` returns right after the failed
`init_iomgr_mapping`, without reaching `cleanup_iomgr_mapping`, and `iomgr_map` is left
at `MAP_FAILED`: the state after the call is not "Unmapped". -/
theorem status_after_mmap_failure_not_unmapped :
    print_iomgr_status ⟨3, MAP_FAILED⟩ (World.start 0) =
      some { mem_fd := -1, iomgr_map := MAP_FAILED, generalio_reg := NULL, hw_reg := 0,
             live := [], stdout := ["Error: Cannot map IOMGR registers\n"],
             trace := [Event.sys_open 3, Event.sys_mmap 3 IOMGR_BASE MAP_FAILED,
                       Event.sys_close 3] } ∧
      print_iomgr_status ⟨3, MAP_FAILED⟩ (World.start 0) =
        some (init_iomgr_mapping ⟨3, MAP_FAILED⟩ (World.start 0)).2 ∧
      Option.map World.iomgr_map (print_iomgr_status ⟨3, MAP_FAILED⟩ (World.start 0)) =
        some MAP_FAILED ∧
      MAP_FAILED ≠ NULL ∧
      ¬ Unmapped (init_iomgr_mapping ⟨3, MAP_FAILED⟩ (World.start 0)).2 := by
  decide

/-- With a working backend whose `mmap` does not return the null pointer, and a state
whose open mapping is not at the null pointer, `print_iomgr_status` ends "Unmapped"
with no live mapping left from the one it used. -/
theorem status_tears_down (b : Backend) (w : World) (hb : b.works) (hw : Consistent w)
    (hnull : b.mmap_ret ≠ NULL) (hmap : 0 ≤ w.mem_fd → w.iomgr_map ≠ NULL) :
    ∃ w1, print_iomgr_status b w = some w1 ∧ Unmapped w1 := by
  refine ⟨_, status_eq b w hb hw, ?_⟩
  have hm := mapped_ensured b w hb hw
  have hne : (ensured b w).iomgr_map ≠ NULL := by
    unfold ensured
    by_cases h : 0 ≤ w.mem_fd
    · simpa [h] using hmap h
    · simpa [h] using hnull
  unfold cleanup_iomgr_mapping Unmapped
  simp [hne, hm.1]

/-! ## Sequences of loan and restore calls -/

theorem exec_of_mapped (c : Call) (b : Backend) (w : World) (hm : Mapped w) :
    ∃ w1 x, c.exec b w = some w1 ∧ Mapped w1 ∧
      w1.mem_fd = w.mem_fd ∧ w1.iomgr_map = w.iomgr_map ∧
      w1.generalio_reg = w.generalio_reg ∧
      w1.trace = w.trace ++ [Event.load w.generalio_reg, Event.store w.generalio_reg x] := by
  cases c
  · exact ⟨_, _, loan_of_mapped b w hm, hm, rfl, rfl, rfl, rfl⟩
  · exact ⟨_, _, restore_of_mapped b w hm, hm, rfl, rfl, rfl, rfl⟩

theorem runCalls_of_mapped (cs : List (Call × Backend)) (w : World) (hm : Mapped w) :
    ∃ w1 evs, runCalls cs w = some w1 ∧ Mapped w1 ∧
      w1.mem_fd = w.mem_fd ∧ w1.iomgr_map = w.iomgr_map ∧
      w1.generalio_reg = w.generalio_reg ∧
      w1.trace = w.trace ++ evs ∧
      evs.all (Event.isAccessAt w.generalio_reg) = true ∧
      evs.length = 2 * cs.length := by
  induction cs generalizing w with
  | nil => exact ⟨w, [], rfl, hm, rfl, rfl, rfl, by simp, rfl, rfl⟩
  | cons cb rest ih =>
    obtain ⟨c, b⟩ := cb
    obtain ⟨w1, x, h1, hm1, hfd1, hmap1, hreg1, htr1⟩ := exec_of_mapped c b w hm
    obtain ⟨w2, evs, h2, hm2, hfd2, hmap2, hreg2, htr2, hall, hlen⟩ := ih w1 hm1
    refine ⟨w2, [Event.load w.generalio_reg, Event.store w.generalio_reg x] ++ evs,
      ?_, hm2, hfd2.trans hfd1, hmap2.trans hmap1, hreg2.trans hreg1, ?_, ?_, ?_⟩
    · simp only [runCalls, h1, h2]
    · rw [htr2, htr1, List.append_assoc]
    · rw [hreg1] at hall
      simp [Event.isAccessAt, hall]
    · simp only [List.length_append, List.length_cons, List.length_nil, hlen]
      omega

theorem exec_of_works (c : Call) (b : Backend) (w : World) (hb : b.works) (hfd : w.mem_fd < 0) :
    ∃ w1 x, c.exec b w = some w1 ∧ Mapped w1 ∧
      w1.mem_fd = b.open_ret ∧ w1.iomgr_map = b.mmap_ret ∧
      w1.generalio_reg = b.mmap_ret + GENERALIO_OFFSET ∧
      w1.trace = w.trace ++
        [Event.sys_open b.open_ret, Event.sys_mmap b.open_ret IOMGR_BASE b.mmap_ret,
         Event.load (b.mmap_ret + GENERALIO_OFFSET),
         Event.store (b.mmap_ret + GENERALIO_OFFSET) x] := by
  have hnot : ¬ 0 ≤ w.mem_fd := not_le.mpr hfd
  have hm := mapped_ensured b w hb (Or.inl hfd)
  have he : ensured b w = { w with
      mem_fd := b.open_ret, iomgr_map := b.mmap_ret,
      generalio_reg := b.mmap_ret + GENERALIO_OFFSET, live := b.mmap_ret :: w.live,
      trace := w.trace ++ [Event.sys_open b.open_ret,
        Event.sys_mmap b.open_ret IOMGR_BASE b.mmap_ret] } := by
    unfold ensured
    simp [hnot]
  cases c
  · refine ⟨_, (w.hw_reg % 2 ^ 32 ||| GPIO_LOAN_MASK) % 2 ^ 32,
      loan_eq b w hb (Or.inl hfd), hm, ?_, ?_, ?_, ?_⟩
    · rw [he]
    · rw [he]
    · rw [he]
    · simp [he]
  · refine ⟨_, (w.hw_reg % 2 ^ 32 &&& bnot32 GPIO_LOAN_MASK) % 2 ^ 32,
      restore_eq b w hb (Or.inl hfd), hm, ?_, ?_, ?_, ?_⟩
    · rw [he]
    · rw [he]
    · rw [he]
    · simp [he]

/-- C9 (lazy initialisation, no teardown by loan/restore). Start with no handle held
and let the backend grant the `open` and `mmap` of the first call. Then every
non-empty sequence of `loan_gpio_to_fpga` / `restore_gpio_to_hps` calls returns in the
state "Mapped" with `mem_fd` the handle and `generalio_reg` the page address plus 0x784
obtained by the first call; the actions of the whole sequence are one `open`, one
`mmap`, and then only loads and stores through that one register address (one load and
one store per call): no later call opens, maps, unmaps or closes, whatever the backend
would answer. -/
theorem loan_restore_sequence_maps_once (c : Call) (b : Backend)
    (rest : List (Call × Backend)) (w : World) (hb : b.works) (hfd : w.mem_fd < 0) :
    ∃ w1 evs, runCalls ((c, b) :: rest) w = some w1 ∧ Mapped w1 ∧
      0 ≤ w1.mem_fd ∧ w1.mem_fd = b.open_ret ∧ w1.iomgr_map = b.mmap_ret ∧
      w1.generalio_reg = b.mmap_ret + 0x784 ∧
      w1.trace = w.trace ++
        [Event.sys_open b.open_ret, Event.sys_mmap b.open_ret IOMGR_BASE b.mmap_ret] ++ evs ∧
      evs.all (Event.isAccessAt (b.mmap_ret + 0x784)) = true ∧
      evs.length = 2 * (rest.length + 1) := by
  obtain ⟨w1, x, h1, hm1, hfd1, hmap1, hreg1, htr1⟩ := exec_of_works c b w hb hfd
  obtain ⟨w2, evs, h2, hm2, hfd2, hmap2, hreg2, htr2, hall, hlen⟩ :=
    runCalls_of_mapped rest w1 hm1
  have hoff : GENERALIO_OFFSET = 0x784 := rfl
  rw [hoff] at hreg1 htr1
  refine ⟨w2, [Event.load (b.mmap_ret + 0x784), Event.store (b.mmap_ret + 0x784) x] ++ evs,
    ?_, hm2, hm2.1, hfd2.trans hfd1, hmap2.trans hmap1, hreg2.trans hreg1, ?_, ?_, ?_⟩
  · simp only [runCalls, h1, h2]
  · rw [htr2, htr1]
    simp
  · rw [hreg1] at hall
    simp [Event.isAccessAt, hall]
  · simp only [List.length_append, List.length_cons, List.length_nil, hlen]
    omega

theorem loan_restore_sequence_maps_once_witness :
    ∃ w1 evs, runCalls ((Call.loan, ⟨3, 0x76F00000⟩) ::
        [(Call.restore, ⟨-1, 0⟩), (Call.loan, ⟨4, MAP_FAILED⟩)]) (World.start 0x1234) = some w1 ∧
      Mapped w1 ∧
      0 ≤ w1.mem_fd ∧ w1.mem_fd = 3 ∧ w1.iomgr_map = 0x76F00000 ∧
      w1.generalio_reg = 0x76F00000 + 0x784 ∧
      w1.trace = (World.start 0x1234).trace ++
        [Event.sys_open 3, Event.sys_mmap 3 IOMGR_BASE 0x76F00000] ++ evs ∧
      evs.all (Event.isAccessAt (0x76F00000 + 0x784)) = true ∧
      evs.length = 2 * ([(Call.restore, (⟨-1, 0⟩ : Backend)),
        (Call.loan, ⟨4, MAP_FAILED⟩)].length + 1) :=
  loan_restore_sequence_maps_once Call.loan ⟨3, 0x76F00000⟩
    [(Call.restore, ⟨-1, 0⟩), (Call.loan, ⟨4, MAP_FAILED⟩)] (World.start 0x1234)
    (by decide) (by decide)

/-! ## Agreement of the mask with the status table -/

theorem pinTable_all_loaned (c : Nat) (h : ∀ i, 16 ≤ i → i ≤ 21 → c.testBit i = true) :
    pinTable c =
      ["  GPIO 48: LOANED to FPGA\n", "  GPIO 49: LOANED to FPGA\n",
       "  GPIO 50: LOANED to FPGA\n", "  GPIO 51: LOANED to FPGA\n",
       "  GPIO 52: LOANED to FPGA\n", "  GPIO 53: LOANED to FPGA\n"] := by
  have h48 : c.testBit (48 - 32) = true := h 16 (by decide) (by decide)
  have h49 : c.testBit (49 - 32) = true := h 17 (by decide) (by decide)
  have h50 : c.testBit (50 - 32) = true := h 18 (by decide) (by decide)
  have h51 : c.testBit (51 - 32) = true := h 19 (by decide) (by decide)
  have h52 : c.testBit (52 - 32) = true := h 20 (by decide) (by decide)
  have h53 : c.testBit (53 - 32) = true := h 21 (by decide) (by decide)
  rw [pinTable_testBit]
  simp only [List.map, if_pos h48, if_pos h49, if_pos h50, if_pos h51, if_pos h52, if_pos h53]
  decide

theorem pinTable_none_loaned (c : Nat) (h : ∀ i, 16 ≤ i → i ≤ 21 → c.testBit i = false) :
    pinTable c =
      ["  GPIO 48: HPS control\n", "  GPIO 49: HPS control\n",
       "  GPIO 50: HPS control\n", "  GPIO 51: HPS control\n",
       "  GPIO 52: HPS control\n", "  GPIO 53: HPS control\n"] := by
  have h48 : ¬ c.testBit (48 - 32) = true := by rw [h 16 (by decide) (by decide)]; decide
  have h49 : ¬ c.testBit (49 - 32) = true := by rw [h 17 (by decide) (by decide)]; decide
  have h50 : ¬ c.testBit (50 - 32) = true := by rw [h 18 (by decide) (by decide)]; decide
  have h51 : ¬ c.testBit (51 - 32) = true := by rw [h 19 (by decide) (by decide)]; decide
  have h52 : ¬ c.testBit (52 - 32) = true := by rw [h 20 (by decide) (by decide)]; decide
  have h53 : ¬ c.testBit (53 - 32) = true := by rw [h 21 (by decide) (by decide)]; decide
  rw [pinTable_testBit]
  simp only [List.map, if_neg h48, if_neg h49, if_neg h50, if_neg h51, if_neg h52, if_neg h53]
  decide

/-- C10 (mask and status table agree). Bit `i` of `GPIO_LOAN_MASK` = 0x3F0000 is set
exactly when `i = p - 32` for a pin `p` in 48..53, that is for the contiguous bits
16..21. Hence, for every 32-bit register value and a working backend,
`print_iomgr_status` called after `loan_gpio_to_fpga` prints "LOANED to FPGA" for each
of the six pins 48..53, and called after `restore_gpio_to_hps` prints "HPS control" for
each of them. -/
theorem mask_agrees_with_status (v : Nat) (b1 b2 : Backend) (w : World)
    (hv : v < 2 ^ 32) (hreg : w.hw_reg = v) (hb : b1.works) (hw : Consistent w) :
    GPIO_LOAN_MASK = 0x3F0000 ∧
    (∀ i, GPIO_LOAN_MASK.testBit i = true ↔ ∃ p, 48 ≤ p ∧ p ≤ 53 ∧ i = p - 32) ∧
    (∀ i, GPIO_LOAN_MASK.testBit i = true ↔ 16 ≤ i ∧ i ≤ 21) ∧
    (∃ w1 w2, loan_gpio_to_fpga b1 w = some w1 ∧ print_iomgr_status b2 w1 = some w2 ∧
      w2.stdout = w1.stdout ++
        ["IOMGR GENERALIO Status: 0x" ++ hex8 (v ||| 0x3F0000) ++ "\n",
         "GPIO Loan Status:\n",
         "  GPIO 48: LOANED to FPGA\n", "  GPIO 49: LOANED to FPGA\n",
         "  GPIO 50: LOANED to FPGA\n", "  GPIO 51: LOANED to FPGA\n",
         "  GPIO 52: LOANED to FPGA\n", "  GPIO 53: LOANED to FPGA\n"]) ∧
    (∃ w1 w2, restore_gpio_to_hps b1 w = some w1 ∧ print_iomgr_status b2 w1 = some w2 ∧
      w2.stdout = w1.stdout ++
        ["IOMGR GENERALIO Status: 0x" ++ hex8 (v &&& 0xFFC0FFFF) ++ "\n",
         "GPIO Loan Status:\n",
         "  GPIO 48: HPS control\n", "  GPIO 49: HPS control\n",
         "  GPIO 50: HPS control\n", "  GPIO 51: HPS control\n",
         "  GPIO 52: HPS control\n", "  GPIO 53: HPS control\n"]) := by
  refine ⟨rfl, ?_, ?_, ?_, ?_⟩
  · intro i
    rw [mask_testBit, decide_eq_true_iff]
    constructor
    · rintro ⟨h1, h2⟩
      exact ⟨i + 32, by omega, by omega, by omega⟩
    · rintro ⟨p, h1, h2, rfl⟩
      omega
  · intro i
    rw [mask_testBit, decide_eq_true_iff]
  · obtain ⟨w1, h1, hm1, hr1, -⟩ := loan_result_mapped b1 w hb hw
    have hmid : w1.hw_reg = v ||| GPIO_LOAN_MASK := by
      rw [hr1, hreg, Nat.mod_eq_of_lt hv, Nat.mod_eq_of_lt (or_mask_lt _ hv)]
    have hmid_lt : w1.hw_reg < 2 ^ 32 := hmid ▸ or_mask_lt _ hv
    refine ⟨w1, _, h1, status_of_mapped b2 w1 hm1, ?_⟩
    rw [cleanup_stdout, Nat.mod_eq_of_lt hmid_lt, pinTable_all_loaned, hmid]
    · simp [GPIO_LOAN_MASK]
    · intro i h16 h21
      rw [hmid, Nat.testBit_or, mask_testBit]
      simp [h16, h21]
  · obtain ⟨w1, h1, hm1, hr1⟩ := restore_result_mapped b1 w hb hw
    have hmid : w1.hw_reg = v &&& bnot32 GPIO_LOAN_MASK := by
      rw [hr1, hreg, Nat.mod_eq_of_lt hv, Nat.mod_eq_of_lt (and_not_mask_lt _ hv)]
    have hmid_lt : w1.hw_reg < 2 ^ 32 := hmid ▸ and_not_mask_lt _ hv
    have hnot : bnot32 GPIO_LOAN_MASK = 0xFFC0FFFF := by decide
    refine ⟨w1, _, h1, status_of_mapped b2 w1 hm1, ?_⟩
    rw [cleanup_stdout, Nat.mod_eq_of_lt hmid_lt, pinTable_none_loaned, hmid, hnot]
    · simp
    · intro i h16 h21
      rw [hmid, Nat.testBit_and, bnot32_mask_testBit]
      simp [h16, h21]

theorem mask_agrees_with_status_witness :
    GPIO_LOAN_MASK = 0x3F0000 ∧
    (∀ i, GPIO_LOAN_MASK.testBit i = true ↔ ∃ p, 48 ≤ p ∧ p ≤ 53 ∧ i = p - 32) ∧
    (∀ i, GPIO_LOAN_MASK.testBit i = true ↔ 16 ≤ i ∧ i ≤ 21) ∧
    (∃ w1 w2, loan_gpio_to_fpga ⟨3, 0x76F00000⟩ (World.start 0x00150000) = some w1 ∧
      print_iomgr_status ⟨-1, 0⟩ w1 = some w2 ∧
      w2.stdout = w1.stdout ++
        ["IOMGR GENERALIO Status: 0x" ++ hex8 (0x00150000 ||| 0x3F0000) ++ "\n",
         "GPIO Loan Status:\n",
         "  GPIO 48: LOANED to FPGA\n", "  GPIO 49: LOANED to FPGA\n",
         "  GPIO 50: LOANED to FPGA\n", "  GPIO 51: LOANED to FPGA\n",
         "  GPIO 52: LOANED to FPGA\n", "  GPIO 53: LOANED to FPGA\n"]) ∧
    (∃ w1 w2, restore_gpio_to_hps ⟨3, 0x76F00000⟩ (World.start 0x00150000) = some w1 ∧
      print_iomgr_status ⟨-1, 0⟩ w1 = some w2 ∧
      w2.stdout = w1.stdout ++
        ["IOMGR GENERALIO Status: 0x" ++ hex8 (0x00150000 &&& 0xFFC0FFFF) ++ "\n",
         "GPIO Loan Status:\n",
         "  GPIO 48: HPS control\n", "  GPIO 49: HPS control\n",
         "  GPIO 50: HPS control\n", "  GPIO 51: HPS control\n",
         "  GPIO 52: HPS control\n", "  GPIO 53: HPS control\n"]) :=
  mask_agrees_with_status 0x00150000 ⟨3, 0x76F00000⟩ ⟨-1, 0⟩ (World.start 0x00150000)
    (by decide) rfl (by decide) (by decide)

end LoanGpio
